import Mathlib

/-!
Shallow embedding of the Pytesseract-Webapp OCR pipeline
(`src/app.py` and `src/utils/text_extraction.py`).

External effects (the Tesseract engine, PIL image loading, the missing
`utils/image_processing.py` / `utils/pdf_processing.py` modules, and the
Streamlit UI calls) are modelled as explicit environments and as an event
trace.  Python strings are Lean `String`s; Python dicts of strings are
association lists with Python's insertion/overwrite semantics; a Python
call that may raise is modelled as `Except String` (the `String` is the
exception message); the float progress fraction `(i+1)/len` is recorded as
the exact pair `(i+1, len)` of naturals whose quotient the code passes.
-/

/-- Python `str.join`: `pyJoin sep [a, b, c] = a ++ sep ++ b ++ sep ++ c`,
`pyJoin sep [] = ""`. -/
def pyJoin (sep : String) : List String → String
  | [] => ""
  | [a] => a
  | a :: b :: rest => a ++ sep ++ pyJoin sep (b :: rest)

/-- Python `str.strip`: removes leading and trailing whitespace. -/
def pyStrip (s : String) : String :=
  ⟨((s.data.dropWhile Char.isWhitespace).reverse.dropWhile Char.isWhitespace).reverse⟩

/-- Python `sub in s`: substring containment test. -/
def pyIn (sub s : String) : Bool :=
  s.data.tails.any (fun t => sub.data.isPrefixOf t)

/-- Auxiliary recursion for `pySplit`, carrying the reversed current chunk. -/
def pySplitAux (sep : Char) : List Char → List Char → List String
  | [], acc => [⟨acc.reverse⟩]
  | c :: rest, acc =>
    if c = sep then ⟨acc.reverse⟩ :: pySplitAux sep rest []
    else pySplitAux sep rest (c :: acc)

/-- Python `s.split(sep)` for a one-character separator:
`pySplit '+' "a+b" = ["a", "b"]`, `pySplit '+' "" = [""]`,
`pySplit '+' "+" = ["", ""]`. -/
def pySplit (sep : Char) (s : String) : List String :=
  pySplitAux sep s.data []

/-- Python dict lookup with a default, for a dict built from a literal list
of key/value pairs: a duplicated key keeps the value of its LAST occurrence
(later bindings in a Python dict literal overwrite earlier ones). -/
def pyDictGetD (l : List (String × String)) (k : String) (d : String) : String :=
  match l.reverse.find? (fun p => p.1 == k) with
  | some p => p.2
  | none => d

/-- Python dict assignment `d[k] = v`: overwrite in place if the key exists,
append otherwise. -/
def dictInsert (d : List (String × String)) (k v : String) : List (String × String) :=
  if d.any (fun p => p.1 == k) then
    d.map (fun p => if p.1 == k then (k, v) else p)
  else
    d ++ [(k, v)]

/-- `get_installed_languages` (text_extraction.py:9-15).  The argument is the
outcome of the `pytesseract.get_languages()` call: `none` means the call
raised, in which case the function returns `['eng']`. -/
def get_installed_languages (glr : Option (List String)) : List String :=
  match glr with
  | some langs => langs
  | none => ["eng"]

/-- The `all_languages` dict literal of `get_supported_languages`
(text_extraction.py:20-26). -/
def all_languages : List (String × String) :=
  [("English", "eng"), ("Hindi", "hin"), ("Marathi", "mar"),
   ("Gujrati", "guj"), ("Punjabi", "pan")]

/-- `get_supported_languages` (text_extraction.py:18-30). -/
def get_supported_languages (glr : Option (List String)) : List (String × String) :=
  all_languages.filter (fun p => (get_installed_languages glr).contains p.2)

/-- `validate_language` (text_extraction.py:32-37). -/
def validate_language (glr : Option (List String)) (lang : String) : String :=
  let installed_langs := get_installed_languages glr
  let requested_langs := pySplit '+' lang
  let valid_langs := requested_langs.filter (fun l => installed_langs.contains l)
  if valid_langs.isEmpty then "eng" else pyJoin "+" valid_langs

/-- `detect_script` (text_extraction.py:39-61).  The argument is the outcome
of `pytesseract.image_to_osd` on the image: `none` means the call raised.
Any failure inside the `try` block (including the `[0]` / `[1]` index errors
while parsing the OSD output) yields the `"Latin"` fallback. -/
def detect_script (osd : Option String) : String :=
  match osd with
  | none => "Latin"
  | some script_info =>
    match (pySplit '\n' script_info).filter (fun line => pyIn "Script" line) with
    | [] => "Latin"
    | script_line :: _ =>
      match pySplit ':' script_line with
      | _ :: second :: _ => pyStrip second
      | _ => "Latin"

/-- The `script_to_lang` dict literal of `map_script_to_language`
(text_extraction.py:72-78), kept in source order; note the duplicated
`'Devanagari'` key, whose last binding (`'mar'`) wins in a Python dict. -/
def script_to_lang : List (String × String) :=
  [("Latin", "eng"), ("Devanagari", "hin"), ("Gujarati", "guj"),
   ("Gurmukhi", "pan"), ("Devanagari", "mar")]

/-- `map_script_to_language` (text_extraction.py:63-80). -/
def map_script_to_language (script : String) : String :=
  pyDictGetD script_to_lang script "eng"

/-- The Python `options` dict created by `create_sidebar_options` (app.py:29-66)
and threaded through the pipeline.  The `language` key is absent initially
(`none`) and is written by `extract_text`. -/
structure PyOptions where
  apply_threshold : Bool
  apply_deskew : Bool
  apply_denoise : Bool
  apply_contrast : Bool
  psm : Nat
  language : Option String
deriving DecidableEq

/-- The external calls `extract_text` makes on one image: the outcome of
`pytesseract.image_to_osd` (`none` = raised) and `pytesseract.image_to_string`
as a function of the config string and the language argument. -/
structure ExtractEnv where
  osd : Option String
  engine : String → String → Except String String

/-- The OCR config string built in `extract_text` (text_extraction.py:101). -/
def ocrConfig (psm : Nat) : String :=
  "--oem 3 --psm " ++ toString psm ++ " preserve_interword_spaces=1"

/-- `extract_text` (text_extraction.py:81-114).  Returns the outcome
(extracted text, or the re-raised `"Text extraction failed: ..."` message)
together with the post-state of the shared `options` dict, whose
`language` key the function assigns before invoking the engine. -/
def extract_text (env : ExtractEnv) (options : PyOptions) :
    Except String String × PyOptions :=
  let detected_script := detect_script env.osd
  let detected_lang := map_script_to_language detected_script
  let options := { options with language := some detected_lang }
  let config := ocrConfig options.psm
  -- lang=options['language'], which was just assigned detected_lang
  match env.engine config detected_lang with
  | .ok text => (.ok (pyStrip text), options)
  | .error e => (.error ("Text extraction failed: " ++ e), options)

/-- One uploaded file as seen by `process_uploaded_files` (app.py:90-145):
its `.name` and its `.type` MIME string. -/
structure UploadedFile where
  name : String
  type : String
deriving DecidableEq

/-- UI and external-collaborator calls of the batch loop, recorded as an
ordered event trace: `st.progress(0)` (bar creation), each
`progress_bar.progress((i+1)/len)` call (recorded as the exact pair
`(i+1, len)` whose quotient the code passes), the completion of one item's
extraction, each `st.error(f"Error processing {name}: {e}")`, and the final
`progress_bar.empty()`. -/
inductive Event where
  | progressStarted
  | progressSet (completed total : Nat)
  | itemDone (name text : String)
  | errorShown (name msg : String)
  | progressCleared
deriving DecidableEq

/-- The external behaviour the batch loop depends on.  `process_pdf` and
`preprocess_image` live in repository modules that are not under `src/`
(`utils/pdf_processing.py`, `utils/image_processing.py`), so they are kept
abstract: arbitrary functions that receive the shared options dict, may
raise (`Except.error`), and may mutate the dict (returned `PyOptions`).
`load_image` models `Image.open` + `np.array`; `osd` and `engine` give the
per-image Tesseract behaviour consumed by `extract_text`. -/
structure BatchEnv (Img : Type) where
  process_pdf : UploadedFile → PyOptions → Except String String × PyOptions
  load_image : UploadedFile → Except String Img
  preprocess_image : Img → PyOptions → Except String Img × PyOptions
  osd : Img → Option String
  engine : Img → String → String → Except String String

/-- The body of the `try` block for one uploaded file (app.py:108-134), up to
the computation of `text`: PDF branch via `process_pdf`, image branch via
`Image.open` → `preprocess_image` → `extract_text`.  Returns the outcome and
the post-state of the shared options dict. -/
def runItem {Img : Type} (benv : BatchEnv Img) (f : UploadedFile) (opts : PyOptions) :
    Except String String × PyOptions :=
  if f.type = "application/pdf" then
    benv.process_pdf f opts
  else
    match benv.load_image f with
    | .error e => (.error e, opts)
    | .ok img =>
      match benv.preprocess_image img opts with
      | (.error e, opts') => (.error e, opts')
      | (.ok processed, opts') =>
          extract_text { osd := benv.osd processed, engine := benv.engine processed } opts'

/-- The `'='*50` section separator of app.py:136. -/
def eqBar : String := String.mk (List.replicate 50 '=')

/-- One entry of `all_text` (app.py:136):
`f"File: {uploaded_file.name}\n\n{text}\n\n{'='*50}\n"`. -/
def mkSection (name text : String) : String :=
  "File: " ++ name ++ "\n\n" ++ text ++ "\n\n" ++ eqBar ++ "\n"

/-- Accumulated outcome of the batch loop: the `all_text` list, the
`individual_texts` dict, the post-state of the shared options dict, and the
trace of UI events. -/
structure BatchOut where
  all_text : List String
  individual_texts : List (String × String)
  options : PyOptions
  trace : List Event
deriving DecidableEq

/-- The `for i, uploaded_file in enumerate(uploaded_files)` loop of
app.py:107-141, over the already-enumerated list.  `n` is
`len(uploaded_files)`.  Per iteration: the progress callback fires first
(with `(i+1)/n`), then the item is processed; on success its section is
appended to `all_text` and its text stored in `individual_texts`; on any
exception `st.error` is shown and the loop continues with the next item. -/
def processItems {Img : Type} (benv : BatchEnv Img) (n : Nat) :
    List (Nat × UploadedFile) → PyOptions → List (String × String) → BatchOut
  | [], opts, its => ⟨[], its, opts, []⟩
  | (i, f) :: rest, opts, its =>
    match runItem benv f opts with
    | (.ok text, opts') =>
        let r := processItems benv n rest opts' (dictInsert its f.name text)
        ⟨mkSection f.name text :: r.all_text, r.individual_texts, r.options,
         .progressSet (i + 1) n :: .itemDone f.name text :: r.trace⟩
    | (.error e, opts') =>
        let r := processItems benv n rest opts' its
        ⟨r.all_text, r.individual_texts, r.options,
         .progressSet (i + 1) n :: .errorShown f.name e :: r.trace⟩

/-- `process_uploaded_files` (app.py:90-145). -/
def process_uploaded_files {Img : Type} (benv : BatchEnv Img)
    (uploaded_files : List UploadedFile) (options : PyOptions) : BatchOut :=
  let r := processItems benv uploaded_files.length uploaded_files.enum options []
  { r with trace := .progressStarted :: (r.trace ++ [.progressCleared]) }

/-- The combined text built by `create_text_downloads` (app.py:156):
`"\n".join(all_text)`. -/
def combined_text (all_text : List String) : String :=
  pyJoin "\n" all_text

/-- The name carried by an item's terminal trace event (completion or
error display), if any. -/
def terminalName : Event → Option String
  | .itemDone name _ => some name
  | .errorShown name _ => some name
  | _ => none

/-- The (name, text) pair of a successful-completion trace event, if any. -/
def doneItem : Event → Option (String × String)
  | .itemDone name text => some (name, text)
  | _ => none

/-- The `(completed, total)` pair of a progress-callback trace event, if any. -/
def progressArgs : Event → Option (Nat × Nat)
  | .progressSet c t => some (c, t)
  | _ => none

/-- The trace shape of one batch run over an enumerated item list: for each
item, exactly one progress-callback event with fraction `(i+1)/n`, followed
immediately by that item's terminal event (completion or error display). -/
def blocksFor (n : Nat) : List (Nat × UploadedFile) → List Event → Prop
  | [], evs => evs = []
  | (i, f) :: rest, evs =>
      ∃ t evs', evs = .progressSet (i + 1) n :: t :: evs' ∧
        terminalName t = some f.name ∧ blocksFor n rest evs'

/-! ### Concrete sample inputs used as witnesses and counterexamples -/

/-- The default sidebar options of app.py:29-66 (threshold, deskew and
denoise on, contrast off, psm 3); no `language` key. -/
def sampleOpts : PyOptions :=
  { apply_threshold := true, apply_deskew := true, apply_denoise := true,
    apply_contrast := false, psm := 3, language := none }

/-- Options carrying a user-declared primary language `'hin'`. -/
def hinOpts : PyOptions :=
  { sampleOpts with language := some "hin" }

/-- A detector that always fails (`image_to_osd` raises), with an engine
that returns the language it was invoked with, so the recognised text
reveals which language was used. -/
def echoDetectFailEnv : ExtractEnv :=
  { osd := none, engine := fun _ lang => .ok lang }

/-- An engine invocation that always fails with message `"boom"`. -/
def engineFailEnv : ExtractEnv :=
  { osd := none, engine := fun _ _ => .error "boom" }

/-- An engine that finds only whitespace on the image. -/
def whitespaceEngineEnv : ExtractEnv :=
  { osd := none, engine := fun _ _ => .ok "  \n\t " }

/-- A single uploaded PNG file named `a.png`. -/
def imgFile : UploadedFile := { name := "a.png", type := "image/png" }

/-- A batch environment in which every image loads, preprocessing succeeds,
script detection raises, and the engine reads the text `"hi"`. -/
def okBatchEnv : BatchEnv Unit :=
  { process_pdf := fun _ o => (.error "pdf", o)
    load_image := fun _ => .ok ()
    preprocess_image := fun i o => (.ok i, o)
    osd := fun _ => none
    engine := fun _ _ _ => .ok "hi" }

/-- A batch environment in which `Image.open` raises on every file. -/
def loadFailEnv : BatchEnv Unit :=
  { okBatchEnv with load_image := fun _ => .error "cannot identify image file" }

/-! ### Helper lemmas -/

theorem pyJoin_cons_ne_empty (sep a : String) (l : List String) (ha : a ≠ "") :
    pyJoin sep (a :: l) ≠ "" := by
  cases l with
  | nil => simpa [pyJoin] using ha
  | cons b rest =>
      intro hcontra
      have hlen := congrArg String.length hcontra
      simp only [pyJoin, String.length_append, String.length_empty] at hlen
      have ha0 : a.length = 0 := by omega
      exact ha (String.ext (List.length_eq_zero.mp ha0))

theorem pyStrip_of_whitespace {s : String} (h : ∀ c ∈ s.data, c.isWhitespace) :
    pyStrip s = "" := by
  have hd : s.data.dropWhile Char.isWhitespace = [] := List.dropWhile_eq_nil_iff.mpr h
  unfold pyStrip
  rw [hd]
  rfl

theorem dictInsert_keys_mem (d : List (String × String)) (k v k' : String) :
    k' ∈ (dictInsert d k v).map Prod.fst ↔ k' = k ∨ k' ∈ d.map Prod.fst := by
  unfold dictInsert
  by_cases hany : d.any (fun p => p.1 == k) = true
  · have hkeys : (d.map (fun p => if p.1 == k then (k, v) else p)).map Prod.fst
        = d.map Prod.fst := by
      rw [List.map_map]
      apply List.map_congr_left
      intro p _
      by_cases hp : p.1 = k
      · simp [hp]
      · simp [hp]
    have hk : k ∈ d.map Prod.fst := by
      obtain ⟨p, hpd, hpk⟩ := List.any_eq_true.mp hany
      exact List.mem_map.mpr ⟨p, hpd, beq_iff_eq.mp hpk⟩
    simp only [hany, if_true, hkeys]
    constructor
    · intro hm; exact Or.inr hm
    · rintro (rfl | hm) <;> [exact hk; exact hm]
  · simp only [hany, if_false, List.map_append, List.mem_append]
    simp [or_comm]

theorem dictInsert_keys_nodup (d : List (String × String)) (k v : String)
    (h : (d.map Prod.fst).Nodup) : ((dictInsert d k v).map Prod.fst).Nodup := by
  unfold dictInsert
  by_cases hany : d.any (fun p => p.1 == k) = true
  · have hkeys : (d.map (fun p => if p.1 == k then (k, v) else p)).map Prod.fst
        = d.map Prod.fst := by
      rw [List.map_map]
      apply List.map_congr_left
      intro p _
      by_cases hp : p.1 = k
      · simp [hp]
      · simp [hp]
    rw [if_pos hany, hkeys]
    exact h
  · have hk : k ∉ d.map Prod.fst := by
      intro hm
      obtain ⟨p, hpd, hpk⟩ := List.mem_map.mp hm
      exact hany (List.any_eq_true.mpr ⟨p, hpd, beq_iff_eq.mpr hpk⟩)
    rw [if_neg hany, List.map_append, List.nodup_append]
    refine ⟨h, by simp, ?_⟩
    intro a ha hb
    simp at hb
    subst hb
    exact hk ha

theorem processItems_blocks {Img : Type} (benv : BatchEnv Img) (n : Nat) :
    ∀ (l : List (Nat × UploadedFile)) (opts : PyOptions) (its : List (String × String)),
      blocksFor n l (processItems benv n l opts its).trace := by
  intro l
  induction l with
  | nil => intro opts its; simp [processItems, blocksFor]
  | cons p rest ih =>
      obtain ⟨i, f⟩ := p
      intro opts its
      rcases hri : runItem benv f opts with ⟨res, opts'⟩
      cases res with
      | ok t =>
          simp only [processItems, hri, blocksFor]
          exact ⟨Event.itemDone f.name t, _, rfl, rfl, ih _ _⟩
      | error e =>
          simp only [processItems, hri, blocksFor]
          exact ⟨Event.errorShown f.name e, _, rfl, rfl, ih _ _⟩

theorem processItems_terminal {Img : Type} (benv : BatchEnv Img) (n : Nat) :
    ∀ (l : List (Nat × UploadedFile)) (opts : PyOptions) (its : List (String × String)),
      (processItems benv n l opts its).trace.filterMap terminalName
        = l.map (fun p => p.2.name) := by
  intro l
  induction l with
  | nil => intro opts its; simp [processItems]
  | cons p rest ih =>
      obtain ⟨i, f⟩ := p
      intro opts its
      rcases hri : runItem benv f opts with ⟨res, opts'⟩
      cases res with
      | ok t => simp [processItems, hri, terminalName, List.filterMap_cons, ih]
      | error e => simp [processItems, hri, terminalName, List.filterMap_cons, ih]

theorem processItems_all_text {Img : Type} (benv : BatchEnv Img) (n : Nat) :
    ∀ (l : List (Nat × UploadedFile)) (opts : PyOptions) (its : List (String × String)),
      (processItems benv n l opts its).all_text
        = ((processItems benv n l opts its).trace.filterMap doneItem).map
            (fun p => mkSection p.1 p.2) := by
  intro l
  induction l with
  | nil => intro opts its; simp [processItems]
  | cons p rest ih =>
      obtain ⟨i, f⟩ := p
      intro opts its
      rcases hri : runItem benv f opts with ⟨res, opts'⟩
      cases res with
      | ok t => simp [processItems, hri, doneItem, List.filterMap_cons, ih]
      | error e => simp [processItems, hri, doneItem, List.filterMap_cons, ih]

theorem processItems_keys_mem {Img : Type} (benv : BatchEnv Img) (n : Nat) :
    ∀ (l : List (Nat × UploadedFile)) (opts : PyOptions) (its : List (String × String))
      (k : String),
      (k ∈ (processItems benv n l opts its).individual_texts.map Prod.fst)
        ↔ (∃ t, Event.itemDone k t ∈ (processItems benv n l opts its).trace)
            ∨ k ∈ its.map Prod.fst := by
  intro l
  induction l with
  | nil => intro opts its k; simp [processItems]
  | cons p rest ih =>
      obtain ⟨i, f⟩ := p
      intro opts its k
      rcases hri : runItem benv f opts with ⟨res, opts'⟩
      cases res with
      | ok t =>
          simp only [processItems, hri]
          rw [ih]
          simp only [dictInsert_keys_mem, List.mem_cons]
          constructor
          · rintro (⟨t', ht'⟩ | rfl | hk)
            · exact Or.inl ⟨t', by simp [ht']⟩
            · exact Or.inl ⟨t, by simp⟩
            · exact Or.inr hk
          · rintro (⟨t', ht'⟩ | hk)
            · rcases ht' with h1 | h2 | h3
              · cases h1
              · rw [Event.itemDone.injEq] at h2
                exact Or.inr (Or.inl h2.1)
              · exact Or.inl ⟨t', h3⟩
            · exact Or.inr (Or.inr hk)
      | error e =>
          simp only [processItems, hri]
          rw [ih]
          simp only [List.mem_cons]
          constructor
          · rintro (⟨t', ht'⟩ | hk)
            · exact Or.inl ⟨t', Or.inr (Or.inr ht')⟩
            · exact Or.inr hk
          · rintro (⟨t', ht'⟩ | hk)
            · rcases ht' with h1 | h2 | h3
              · cases h1
              · cases h2
              · exact Or.inl ⟨t', h3⟩
            · exact Or.inr hk

theorem processItems_keys_nodup {Img : Type} (benv : BatchEnv Img) (n : Nat) :
    ∀ (l : List (Nat × UploadedFile)) (opts : PyOptions) (its : List (String × String)),
      (its.map Prod.fst).Nodup →
      ((processItems benv n l opts its).individual_texts.map Prod.fst).Nodup := by
  intro l
  induction l with
  | nil => intro opts its h; simpa [processItems] using h
  | cons p rest ih =>
      obtain ⟨i, f⟩ := p
      intro opts its h
      rcases hri : runItem benv f opts with ⟨res, opts'⟩
      cases res with
      | ok t =>
          simp only [processItems, hri]
          exact ih _ _ (dictInsert_keys_nodup its f.name t h)
      | error e =>
          simp only [processItems, hri]
          exact ih _ _ h

theorem processItems_done_name {Img : Type} (benv : BatchEnv Img) (n : Nat) :
    ∀ (l : List (Nat × UploadedFile)) (opts : PyOptions) (its : List (String × String))
      (k t : String),
      Event.itemDone k t ∈ (processItems benv n l opts its).trace →
      k ∈ l.map (fun p => p.2.name) := by
  intro l
  induction l with
  | nil => intro opts its k t h; simp [processItems] at h
  | cons p rest ih =>
      obtain ⟨i, f⟩ := p
      intro opts its k t h
      rcases hri : runItem benv f opts with ⟨res, opts'⟩
      cases res with
      | ok u =>
          simp only [processItems, hri, List.mem_cons] at h
          rcases h with h1 | h2 | h3
          · cases h1
          · rw [Event.itemDone.injEq] at h2
            simp [h2.1]
          · simp [ih _ _ _ _ h3]
      | error e =>
          simp only [processItems, hri, List.mem_cons] at h
          rcases h with h1 | h2 | h3
          · cases h1
          · cases h2
          · simp [ih _ _ _ _ h3]

theorem map_script_to_language_of_not_key (s : String) (h1 : s ≠ "Latin")
    (h2 : s ≠ "Devanagari") (h3 : s ≠ "Gujarati") (h4 : s ≠ "Gurmukhi") :
    map_script_to_language s = "eng" := by
  have e1 : ("Latin" == s) = false := beq_eq_false_iff_ne.mpr (Ne.symm h1)
  have e2 : ("Devanagari" == s) = false := beq_eq_false_iff_ne.mpr (Ne.symm h2)
  have e3 : ("Gujarati" == s) = false := beq_eq_false_iff_ne.mpr (Ne.symm h3)
  have e4 : ("Gurmukhi" == s) = false := beq_eq_false_iff_ne.mpr (Ne.symm h4)
  simp [map_script_to_language, pyDictGetD, script_to_lang, List.find?, e1, e2, e3, e4]

theorem contains_true_iff_mem (l : List String) (a : String) :
    l.contains a = true ↔ a ∈ l := List.elem_iff

theorem enum_map_name (files : List UploadedFile) :
    files.enum.map (fun p => p.2.name) = files.map UploadedFile.name := by
  rw [show (fun p : Nat × UploadedFile => p.2.name)
        = (UploadedFile.name ∘ Prod.snd) from rfl,
      ← List.map_map, List.enum_map_snd]

/-! ### Claims -/

/-- Claim C1, counterexample: an item whose processing fails (here
`Image.open` raises on the single submitted file `a.png`) is NOT recorded in
the per-file mapping — the mapping comes back empty while the submitted name
list is `["a.png"]`, so the claim that every submitted item appears as a key,
with failures recorded as error entries, is false on the code. -/
theorem batch_drops_failed_item :
    (process_uploaded_files loadFailEnv [imgFile] sampleOpts).individual_texts.map Prod.fst
      = ([] : List String) ∧
    [imgFile].map UploadedFile.name = ["a.png"] ∧
    (([] : List String) ≠ ["a.png"]) :=
  ⟨by decide, by decide, by decide⟩

/-- Claim C1, amended: the per-file mapping's keys are exactly the names of
the items that were processed successfully — without duplicates and always
among the submitted names — while a failed item is reported via the error
display but omitted from the mapping (an empty batch still yields an empty
mapping). -/
theorem batch_mapping_keys_iff_success {Img : Type} (benv : BatchEnv Img)
    (files : List UploadedFile) (opts : PyOptions) :
    ((process_uploaded_files benv files opts).individual_texts.map Prod.fst).Nodup ∧
    (∀ k, k ∈ (process_uploaded_files benv files opts).individual_texts.map Prod.fst ↔
        ∃ t, Event.itemDone k t ∈ (process_uploaded_files benv files opts).trace) ∧
    (∀ k, k ∈ (process_uploaded_files benv files opts).individual_texts.map Prod.fst →
        k ∈ files.map UploadedFile.name) := by
  refine ⟨?_, ?_, ?_⟩
  · simp only [process_uploaded_files]
    exact processItems_keys_nodup benv files.length files.enum opts [] (by simp)
  · intro k
    simp only [process_uploaded_files]
    rw [processItems_keys_mem]
    simp [List.mem_cons, List.mem_append]
  · intro k hk
    simp only [process_uploaded_files] at hk
    rw [processItems_keys_mem] at hk
    rcases hk with ⟨t, ht⟩ | hk
    · have := processItems_done_name benv files.length files.enum opts [] k t ht
      rwa [enum_map_name] at this
    · simp at hk

/-- Witness for the amended claim C1: in a batch whose single item `a.png`
succeeds with text `"hi"`, the name `a.png` is a key of the mapping. -/
theorem batch_mapping_keys_iff_success_witness :
    ("a.png" : String)
      ∈ (process_uploaded_files okBatchEnv [imgFile] sampleOpts).individual_texts.map Prod.fst :=
  ((batch_mapping_keys_iff_success okBatchEnv [imgFile] sampleOpts).2.1 "a.png").mpr
    ⟨"hi", by decide⟩

/-- Claim C2 (code-bug evidence): with a user-declared primary language
`'hin'` and a script detector that always fails, recognition runs with
`'eng'` (the `"Latin"` fallback of `detect_script` mapped through
`map_script_to_language`), not with the user's `'hin'` — the engine, which
here echoes the language it was invoked with, reads back `"eng"`, and the
shared options' language is overwritten to `'eng'`. -/
theorem detection_failure_uses_eng_not_user :
    hinOpts.language = some "hin" ∧
    (extract_text echoDetectFailEnv hinOpts).1 = .ok "eng" ∧
    (extract_text echoDetectFailEnv hinOpts).2.language = some "eng" ∧
    ("eng" : String) ≠ "hin" :=
  ⟨rfl, rfl, rfl, by decide⟩

/-- Claim C3, counterexample: after one `extract_text` call the `language`
field of the shared options dict differs from its value before the call, so
the claim that all fields are unchanged is false on the code. -/
theorem resolver_overwrites_language_field :
    (extract_text echoDetectFailEnv hinOpts).2.language ≠ hinOpts.language := by decide

/-- Claim C3, amended: processing one item leaves the psm and the four
enhancement flags of the shared options unchanged, but writes the language
mapped from the detected script into the shared options' `language` field —
a mutation of the shared dict, visible after the call, not a local value. -/
theorem resolver_mutates_only_language (env : ExtractEnv) (opts : PyOptions) :
    (extract_text env opts).2.apply_threshold = opts.apply_threshold ∧
    (extract_text env opts).2.apply_deskew = opts.apply_deskew ∧
    (extract_text env opts).2.apply_denoise = opts.apply_denoise ∧
    (extract_text env opts).2.apply_contrast = opts.apply_contrast ∧
    (extract_text env opts).2.psm = opts.psm ∧
    (extract_text env opts).2.language
      = some (map_script_to_language (detect_script env.osd)) := by
  cases h : env.engine (ocrConfig opts.psm) (map_script_to_language (detect_script env.osd)) with
  | ok t => simp [extract_text, h]
  | error e => simp [extract_text, h]

/-- Claim C4: for every ordered batch and every behaviour of the external
calls (including arbitrary per-item failures), the loop visits each
submitted item exactly once — the trace contains exactly one terminal event
(completion or error display) per item, in submission order, so a failure
on one item never halts the processing of subsequent items. -/
theorem orchestrator_visits_each_item_once {Img : Type} (benv : BatchEnv Img)
    (files : List UploadedFile) (opts : PyOptions) :
    (process_uploaded_files benv files opts).trace.filterMap terminalName
      = files.map UploadedFile.name := by
  simp [process_uploaded_files, List.filterMap_cons, List.filterMap_append, terminalName,
        processItems_terminal, enum_map_name]

/-- Claim C5, counterexample: when the engine invocation fails for the item
`doc1.png`, the error surfaced by `extract_text` is the generic message
`"Text extraction failed: boom"`, which does not carry the source item's
name, so the claim of a typed error value carrying the name is false on the
code. -/
theorem dispatcher_error_lacks_item_name :
    (extract_text engineFailEnv sampleOpts).1 = .error "Text extraction failed: boom" ∧
    pyIn "doc1.png" "Text extraction failed: boom" = false :=
  ⟨rfl, by decide⟩

/-- Claim C5, amended: when the engine invocation fails, `extract_text`
re-raises a generic exception whose message is `"Text extraction failed: "`
followed by the original error; the source item's name is not part of the
dispatcher's error — it is attached only by the orchestrator's error
display. -/
theorem dispatcher_error_message (env : ExtractEnv) (opts : PyOptions) (e : String)
    (h : env.engine (ocrConfig opts.psm)
        (map_script_to_language (detect_script env.osd)) = .error e) :
    (extract_text env opts).1 = .error ("Text extraction failed: " ++ e) := by
  simp [extract_text, h]

/-- Witness for the amended claim C5 at a concrete failing engine. -/
theorem dispatcher_error_message_witness :
    engineFailEnv.engine (ocrConfig sampleOpts.psm)
        (map_script_to_language (detect_script engineFailEnv.osd)) = .error "boom" ∧
    (extract_text engineFailEnv sampleOpts).1 = .error ("Text extraction failed: " ++ "boom") :=
  ⟨rfl, dispatcher_error_message engineFailEnv sampleOpts "boom" rfl⟩

/-- Claim C6, counterexample: in a successful one-item batch whose resolved
language is `'eng'`, the combined transcript's only section header is
`File: a.png` — the transcript nowhere contains the resolved language, so
the claim that each header contains the resolved language is false on the
code. -/
theorem combined_header_lacks_language :
    (process_uploaded_files okBatchEnv [imgFile] sampleOpts).all_text
      = ["File: a.png\n\nhi\n\n" ++ eqBar ++ "\n"] ∧
    (process_uploaded_files okBatchEnv [imgFile] sampleOpts).options.language = some "eng" ∧
    pyIn "eng"
      (combined_text (process_uploaded_files okBatchEnv [imgFile] sampleOpts).all_text) = false :=
  ⟨by decide, by decide, by decide⟩

/-- Claim C6, amended: the combined transcript is the newline-join, in
submission order, of one section per successfully processed item, each
section being the header `File: <name>` (the source name only — the
resolved language is not included), two newlines, the item's text, two
newlines, and a terminating line of fifty `=` characters. -/
theorem combined_transcript_sections {Img : Type} (benv : BatchEnv Img)
    (files : List UploadedFile) (opts : PyOptions) :
    (process_uploaded_files benv files opts).all_text
      = ((process_uploaded_files benv files opts).trace.filterMap doneItem).map
          (fun p => "File: " ++ p.1 ++ "\n\n" ++ p.2 ++ "\n\n" ++ eqBar ++ "\n") ∧
    combined_text (process_uploaded_files benv files opts).all_text
      = pyJoin "\n" (process_uploaded_files benv files opts).all_text := by
  refine ⟨?_, rfl⟩
  simp [process_uploaded_files, List.filterMap_cons, List.filterMap_append, doneItem,
        processItems_all_text, mkSection]

/-- Claim C7, counterexample: in a one-item batch the progress callback
(`progressSet 1 1`, fraction 1/1) occurs in the trace strictly BEFORE the
item's processing completes (`itemDone`), so the claim that the callback is
invoked only after the item's processing completes is false on the code. -/
theorem progress_fires_before_processing :
    (process_uploaded_files okBatchEnv [imgFile] sampleOpts).trace
      = [Event.progressStarted, Event.progressSet 1 1, Event.itemDone "a.png" "hi",
         Event.progressCleared] ∧
    (process_uploaded_files okBatchEnv [imgFile] sampleOpts).trace.indexOf
        (Event.progressSet 1 1)
      < (process_uploaded_files okBatchEnv [imgFile] sampleOpts).trace.indexOf
        (Event.itemDone "a.png" "hi") :=
  ⟨by decide, by decide⟩

/-- Claim C7, amended: the progress callback is invoked exactly once per
item with fraction `(i+1)/N` for the i-th (0-based) of N items, in
submission order, but each invocation happens immediately BEFORE that
item's processing (its completion or error event follows it in the trace),
not after the item completes. -/
theorem progress_once_per_item_before_completion {Img : Type} (benv : BatchEnv Img)
    (files : List UploadedFile) (opts : PyOptions) :
    ∃ body, (process_uploaded_files benv files opts).trace
        = Event.progressStarted :: (body ++ [Event.progressCleared]) ∧
      blocksFor files.length files.enum body :=
  ⟨(processItems benv files.length files.enum opts []).trace, rfl,
    processItems_blocks benv files.length files.enum opts []⟩

/-- Claim C8: when the engine finds only whitespace (or nothing) on the
image, `extract_text` returns the empty string — and by its result type
`Except String String` it can never return a null value. -/
theorem no_text_yields_empty_string (env : ExtractEnv) (opts : PyOptions) (s : String)
    (hok : env.engine (ocrConfig opts.psm)
        (map_script_to_language (detect_script env.osd)) = .ok s)
    (hws : ∀ c ∈ s.data, c.isWhitespace) :
    (extract_text env opts).1 = .ok "" := by
  simp [extract_text, hok, pyStrip_of_whitespace hws]

/-- Witness for claim C8: an engine returning the whitespace text
`"  \n\t "` yields the empty string. -/
theorem no_text_yields_empty_string_witness :
    (∀ c ∈ ("  \n\t " : String).data, c.isWhitespace) ∧
    (extract_text whitespaceEngineEnv sampleOpts).1 = .ok "" :=
  ⟨by decide, no_text_yields_empty_string whitespaceEngineEnv sampleOpts "  \n\t " rfl (by decide)⟩

/-- Claim C9: `map_script_to_language` never returns `'hin'` — the
duplicated `'Devanagari'` key of the table makes `'Devanagari'` map to
`'mar'`, and every script name outside the four table keys maps to the
`'eng'` fallback. -/
theorem map_script_never_hin (s : String) :
    map_script_to_language s ≠ "hin" ∧
    map_script_to_language "Devanagari" = "mar" ∧
    (s ∉ (["Latin", "Devanagari", "Gujarati", "Gurmukhi"] : List String) →
      map_script_to_language s = "eng") := by
  refine ⟨?_, by decide, ?_⟩
  · by_cases h1 : s = "Latin"
    · subst h1; decide
    by_cases h2 : s = "Devanagari"
    · subst h2; decide
    by_cases h3 : s = "Gujarati"
    · subst h3; decide
    by_cases h4 : s = "Gurmukhi"
    · subst h4; decide
    rw [map_script_to_language_of_not_key s h1 h2 h3 h4]
    decide
  · intro hmem
    have h1 : s ≠ "Latin" := fun h => hmem (by simp [h])
    have h2 : s ≠ "Devanagari" := fun h => hmem (by simp [h])
    have h3 : s ≠ "Gujarati" := fun h => hmem (by simp [h])
    have h4 : s ≠ "Gurmukhi" := fun h => hmem (by simp [h])
    exact map_script_to_language_of_not_key s h1 h2 h3 h4

/-- Witness for claim C9 at the script name `"Arabic"`, which is not a
table key: the result is `'eng'`, not `'hin'`. -/
theorem map_script_never_hin_witness :
    ("Arabic" : String) ∉ (["Latin", "Devanagari", "Gujarati", "Gurmukhi"] : List String) ∧
    map_script_to_language "Arabic" = "eng" ∧
    map_script_to_language "Arabic" ≠ "hin" :=
  ⟨by decide, (map_script_never_hin "Arabic").2.2 (by decide), (map_script_never_hin "Arabic").1⟩

/-- Claim C10: `validate_language` returns the `'+'`-join, in request order,
of the requested codes that are installed, or the literal `'eng'` when none
is; provided the installed list has no empty name and contains `'eng'`, the
result is never the empty string and every `'+'`-component of the result is
an installed code. -/
theorem validate_language_spec (glr : Option (List String)) (lang : String)
    (h1 : "" ∉ get_installed_languages glr)
    (h2 : "eng" ∈ get_installed_languages glr) :
    validate_language glr lang
        = (if ((pySplit '+' lang).filter
                (fun l => (get_installed_languages glr).contains l)).isEmpty
           then "eng"
           else pyJoin "+" ((pySplit '+' lang).filter
                (fun l => (get_installed_languages glr).contains l))) ∧
    validate_language glr lang ≠ "" ∧
    ∃ comps : List String, comps ≠ [] ∧
      (∀ c ∈ comps, c ∈ get_installed_languages glr) ∧
      validate_language glr lang = pyJoin "+" comps := by
  have heq : validate_language glr lang
      = (if ((pySplit '+' lang).filter
              (fun l => (get_installed_languages glr).contains l)).isEmpty
         then "eng"
         else pyJoin "+" ((pySplit '+' lang).filter
              (fun l => (get_installed_languages glr).contains l))) := rfl
  refine ⟨heq, ?_, ?_⟩
  · cases hval : (pySplit '+' lang).filter
        (fun l => (get_installed_languages glr).contains l) with
    | nil =>
        rw [heq, hval]
        decide
    | cons a rest =>
        have ha : a ∈ get_installed_languages glr := by
          have hmem : a ∈ (pySplit '+' lang).filter
              (fun l => (get_installed_languages glr).contains l) := by
            rw [hval]; exact List.mem_cons_self a rest
          exact (contains_true_iff_mem _ _).mp (List.mem_filter.mp hmem).2
        have hane : a ≠ "" := fun h => h1 (h ▸ ha)
        rw [heq, hval]
        simpa using pyJoin_cons_ne_empty "+" a rest hane
  · cases hval : (pySplit '+' lang).filter
        (fun l => (get_installed_languages glr).contains l) with
    | nil =>
        refine ⟨["eng"], by simp, ?_, ?_⟩
        · intro c hc
          simp at hc
          subst hc
          exact h2
        · rw [heq, hval]; rfl
    | cons a rest =>
        refine ⟨a :: rest, by simp, ?_, ?_⟩
        · intro c hc
          have hmem : c ∈ (pySplit '+' lang).filter
              (fun l => (get_installed_languages glr).contains l) := by
            rw [hval]; exact hc
          exact (contains_true_iff_mem _ _).mp (List.mem_filter.mp hmem).2
        · rw [heq, hval]
          simp

/-- Witness for claim C10 with installed languages `["eng", "hin"]` and the
request `"hin+foo"`. -/
theorem validate_language_spec_witness :
    ("" : String) ∉ get_installed_languages (some ["eng", "hin"]) ∧
    ("eng" : String) ∈ get_installed_languages (some ["eng", "hin"]) ∧
    validate_language (some ["eng", "hin"]) "hin+foo" ≠ "" ∧
    ∃ comps : List String, comps ≠ [] ∧
      (∀ c ∈ comps, c ∈ get_installed_languages (some ["eng", "hin"])) ∧
      validate_language (some ["eng", "hin"]) "hin+foo" = pyJoin "+" comps :=
  ⟨by decide, by decide,
    (validate_language_spec (some ["eng", "hin"]) "hin+foo" (by decide) (by decide)).2.1,
    (validate_language_spec (some ["eng", "hin"]) "hin+foo" (by decide) (by decide)).2.2⟩
